import Mathlib

/-!
Verification of the artifact acquisition and verification pipeline of
nomadutil (src/security.rs, src/releases.rs) against its specification.

The Rust source is shallowly embedded:
  - bytes are lists of naturals,
  - external collaborators (the HTTP transport, the sha2 digest, the gpgrv
    signature primitives, the zip container) are parameters of the embedding,
    supplied through a `World` record; everything the repository itself
    computes (manifest parsing, hex codec, error control flow, sequencing)
    is translated function by function,
  - the single anyhow error channel of the source is represented by the
    inductive `Err`, one constructor per distinct bail site, carrying the
    data that the corresponding format string carries.
All string manipulation is re-implemented by structural recursion on
`List Char` so that every definition evaluates inside the kernel.
-/

/-- Byte strings are modelled as lists of naturals (each < 256 where relevant). -/
abbrev Bytes := List Nat

/-- The compiled-in target architecture: `crate::ARCH = "amd64"` (main.rs,
under `cfg(target_arch = "x86_64")`). -/
def ARCH : String := "amd64"

/-- The single anyhow error channel of the source, one constructor per
distinct bail site, carrying the data interpolated into the bail message. -/
inductive Err where
  /-- artifacts.rs: non-success HTTP status fetching the SHA256SUMS text. -/
  | networkSums (status : Nat)
  /-- artifacts.rs: non-success HTTP status fetching the SHA256SUMS signature. -/
  | networkSig (status : Nat)
  /-- artifacts.rs: non-success HTTP status fetching the zip archive. -/
  | networkZip (status : Nat)
  /-- security.rs SigChecker::new: the embedded gpg key asset is missing. -/
  | keyringLoad
  /-- security.rs SigChecker::check: gpgrv detached verification failed. -/
  | sigInvalid
  /-- security.rs SumsChecker::new: a line does not have exactly two fields. -/
  | malformedLine (line : String)
  /-- security.rs SumsChecker::new: an artifact name does not have exactly four components. -/
  | malformedFilename (name : String)
  /-- security.rs SumsChecker::new: the line for this os/arch carries another version. -/
  | versionMismatch (found expected : String)
  /-- security.rs SumsChecker::new: hex::decode of the digest field failed. -/
  | malformedDigest
  /-- security.rs SumsChecker::new: scan finished without a matching line. -/
  | checksumNotFound (version arch : String)
  /-- security.rs SumsChecker::check: computed digest differs from the expected one. -/
  | digestMismatch (actualHex expectedHex : String)
  /-- releases.rs: ZipArchive::new failed to parse the container. -/
  | malformedArchive
  /-- releases.rs: the archive holds no entry. -/
  | emptyArchive
  /-- releases.rs: the archive holds more than one entry (names are logged). -/
  | multipleEntries (names : List String)
  /-- releases.rs: by_name found no entry of the expected name. -/
  | entryNotFound (actual expected : String)
  /-- Models a Rust panic of Option::unwrap on None (releases.rs line 100). -/
  | panicUnwrap
deriving DecidableEq

/- ------------------------------------------------------------------ -/
/- String plumbing, re-implemented structurally so it kernel-evaluates. -/
/- ------------------------------------------------------------------ -/

/-- Split a character list at every character satisfying p, keeping empty
pieces, as both Rust str::split and the pieces feeding split_whitespace do. -/
def splitWhenAux (p : Char → Bool) : List Char → List Char → List (List Char)
  | [], acc => [acc.reverse]
  | x :: xs, acc =>
    if p x then acc.reverse :: splitWhenAux p xs []
    else splitWhenAux p xs (x :: acc)

/-- Split a character list at every character satisfying p. -/
def splitWhen (p : Char → Bool) (l : List Char) : List (List Char) :=
  splitWhenAux p l []

/-- Rust str::split(c): split at every occurrence of c, keeping empty pieces. -/
def splitOnChar (c : Char) (l : List Char) : List (List Char) :=
  splitWhen (fun x => x == c) l

/-- Rust sums_raw.split('\n') : the manifest text as a list of lines. -/
def splitLines (s : String) : List String :=
  (splitOnChar '\n' s.data).map String.mk

/-- Rust str::split_whitespace: maximal runs of non-whitespace characters. -/
def whitespaceFields (l : List Char) : List (List Char) :=
  (splitWhen Char.isWhitespace l).filter (fun f => !f.isEmpty)

/-- One pass of str::trim_end_matches(".zip"): remove one trailing ".zip",
bounded by fuel; the fuel l.length dominates the number of removals. -/
def trimZipAux : Nat → List Char → List Char
  | 0, l => l
  | n + 1, l =>
    match l.reverse with
    | 'p' :: 'i' :: 'z' :: '.' :: rest => trimZipAux n rest.reverse
    | _ => l

/-- Rust fields[1].trim_end_matches(".zip"): repeatedly strip a trailing ".zip". -/
def trimEndZip (l : List Char) : List Char :=
  trimZipAux l.length l

/- ------------------------------------------------------------------ -/
/- Hex codec (the hex crate: decode and encode, lowercase).            -/
/- ------------------------------------------------------------------ -/

/-- Value of one hex digit, accepting 0-9, a-f and A-F as hex::decode does. -/
def hexVal (c : Char) : Option Nat :=
  if 48 ≤ c.toNat ∧ c.toNat ≤ 57 then some (c.toNat - 48)
  else if 97 ≤ c.toNat ∧ c.toNat ≤ 102 then some (c.toNat - 87)
  else if 65 ≤ c.toNat ∧ c.toNat ≤ 70 then some (c.toNat - 55)
  else none

/-- hex::decode on a character list: fails on odd length or a non-hex digit. -/
def hexDecodeList : List Char → Option Bytes
  | [] => some []
  | [_] => none
  | c1 :: c2 :: rest =>
    match hexVal c1, hexVal c2, hexDecodeList rest with
    | some hi, some lo, some tail => some ((16 * hi + lo) :: tail)
    | _, _, _ => none

/-- hex::decode of a string. -/
def hexDecode (s : String) : Option Bytes :=
  hexDecodeList s.data

/-- Lowercase hex digit of a value below 16, as hex::encode produces. -/
def hexDigitChar (n : Nat) : Char :=
  if n < 10 then Char.ofNat (48 + n) else Char.ofNat (87 + n)

/-- hex::encode of a byte list, two lowercase digits per byte. -/
def hexEncodeList : Bytes → List Char
  | [] => []
  | b :: rest => hexDigitChar (b / 16) :: hexDigitChar (b % 16) :: hexEncodeList rest

/-- hex::encode of a byte list as a string. -/
def hexEncode (bs : Bytes) : String :=
  String.mk (hexEncodeList bs)

/- ------------------------------------------------------------------ -/
/- SumsChecker (security.rs lines 57-129).                             -/
/- ------------------------------------------------------------------ -/

/-- Outcome of the per-line field extraction inside SumsChecker::new:
exactly two whitespace-separated fields, then exactly four components of
the filename once a trailing ".zip" is stripped and it is split on the
underscore; the second parsed field is the version, then os, then arch
(component zero, the product name, is dropped as in the source). -/
inductive LineResult where
  | malformedLine (line : String)
  | malformedFilename (name : String)
  | parsed (digestField ver os arch : String)
deriving DecidableEq

/-- Field extraction for one manifest line (security.rs lines 69-82). -/
def parseLine (line : String) : LineResult :=
  match whitespaceFields line.data with
  | [digestField, name] =>
    match splitOnChar '_' (trimEndZip name) with
    | [_, ver, os, arch] =>
      LineResult.parsed (String.mk digestField) (String.mk ver) (String.mk os) (String.mk arch)
    | _ => LineResult.malformedFilename (String.mk name)
  | _ => LineResult.malformedLine line

/-- The scanning loop of SumsChecker::new (security.rs lines 60-113): skip
empty lines, bail on malformed lines, skip lines of another os or arch,
bail on a version mismatch, return the hex-decoded digest of the first
full match, and report checksumNotFound when the scan completes. -/
def selectLines (version : String) : List String → Except Err Bytes
  | [] => Except.error (Err.checksumNotFound version ARCH)
  | line :: rest =>
    if line = "" then selectLines version rest
    else
      match parseLine line with
      | LineResult.malformedLine l => Except.error (Err.malformedLine l)
      | LineResult.malformedFilename n => Except.error (Err.malformedFilename n)
      | LineResult.parsed digestField ver os arch =>
        if os ≠ "linux" then selectLines version rest
        else if arch ≠ ARCH then selectLines version rest
        else if ver ≠ version then Except.error (Err.versionMismatch ver version)
        else
          match hexDecode digestField with
          | none => Except.error Err.malformedDigest
          | some d => Except.ok d

/-- SumsChecker::new : parse the SHA256SUMS text and select the digest for
the requested version on the fixed target platform (linux, ARCH). -/
def sumsCheckerNew (sums_raw version : String) : Except Err Bytes :=
  selectLines version (splitLines sums_raw)

/-- SumsChecker::check (security.rs lines 119-129), with the sha2 digest
function as an explicit parameter for the external crate: compare the
digest of src against the stored sums byte-for-byte, reporting both hex
encodings on mismatch (actual first, expected second, as in the source
message). -/
def sumsCheckerCheck (digest : Bytes → Bytes) (sums src : Bytes) : Except Err Unit :=
  let d := digest src
  if d ≠ sums then
    Except.error (Err.digestMismatch (hexEncode d) (hexEncode sums))
  else
    Except.ok ()

/- ------------------------------------------------------------------ -/
/- SigChecker (security.rs lines 28-55).                               -/
/- ------------------------------------------------------------------ -/

/-- A gpgrv keyring, abstractly: the list of keys it holds. -/
abbrev Keyring := List Bytes

/-- SigChecker::new (security.rs lines 30-46). The embedded asset lookup
(Assets::get) is the Option argument; gpgrv append_keys_from_armoured is
the function argument, returning the keys appended together with its
success flag. The source binds the append result to an underscore, so the
flag is discarded: construction fails only when the asset is missing. -/
def sigCheckerNew (asset : Option Bytes) (appendKeys : Bytes → Keyring × Bool) :
    Except Err Keyring :=
  match asset with
  | none => Except.error Err.keyringLoad
  | some key => Except.ok (appendKeys key).1

/- ------------------------------------------------------------------ -/
/- Archive extraction (releases.rs lines 107-124).                     -/
/- ------------------------------------------------------------------ -/

/-- The extraction step of releases.rs get, factored over an already parsed
zip container given as its list of entries (name, fully decompressed
bytes): an empty archive and an archive of more than one entry are
rejected (the source logs the full name list in the latter case), then the
single entry must carry the expected name (by_name) and its bytes are
returned. -/
def extractSingle (entries : List (String × Bytes)) (expected : String) :
    Except Err Bytes :=
  if entries.isEmpty then Except.error Err.emptyArchive
  else if entries.length ≠ 1 then
    Except.error (Err.multipleEntries (entries.map Prod.fst))
  else
    match entries with
    | [] => Except.error Err.emptyArchive
    | (name, bytes) :: _ =>
      if name = expected then Except.ok bytes
      else Except.error (Err.entryNotFound name expected)

/- ------------------------------------------------------------------ -/
/- The orchestrator releases.rs get (lines 65-130).                    -/
/- ------------------------------------------------------------------ -/

/-- ReleaseGetOpts (releases.rs lines 15-20). -/
structure ReleaseGetOpts where
  check_integrity : Bool
  check_sig : Bool
deriving DecidableEq

/-- Observable external interactions of one acquisition, recorded in order. -/
inductive Event where
  /-- Sha256Sums::get was invoked (manifest text fetched). -/
  | fetchSums
  /-- Sha256SumsSig::get was invoked (signature bytes fetched). -/
  | fetchSig
  /-- gpgrv verify_detached was invoked. -/
  | verifySig
  /-- NomadZip::get was invoked (archive bytes fetched). -/
  | fetchZip
deriving DecidableEq, BEq

/-- The external collaborators of one acquisition: the three transport
results, the embedded key asset, and the gpgrv / sha2 / zip primitives.
Transport errors carry the HTTP status of the failed request. -/
structure World where
  /-- Result of Sha256Sums::get: the manifest text. -/
  sumsText : Except Nat String
  /-- Result of Sha256SumsSig::get: the detached signature bytes. -/
  sigBytes : Except Nat Bytes
  /-- Result of NomadZip::get: the raw archive bytes. -/
  zipBytes : Except Nat Bytes
  /-- Assets::get "security@hashicorp.com.key". -/
  keyAsset : Option Bytes
  /-- gpgrv append_keys_from_armoured: appended keys and success flag. -/
  appendKeys : Bytes → Keyring × Bool
  /-- gpgrv verify_detached of a signature over the manifest text. -/
  verifyDetached : Bytes → String → Keyring → Bool
  /-- Sha256::digest. -/
  digest : Bytes → Bytes
  /-- ZipArchive::new over the raw bytes: the parsed entry list, none when
  the container is malformed. -/
  parseZip : Bytes → Option (List (String × Bytes))

/-- The integrity preamble of get (releases.rs lines 72-90): when
check_integrity is set, fetch the manifest text and, unless check_sig is
cleared, fetch the signature, build the keyring and verify; the manifest
text is carried forward unparsed. Returns the optional manifest text and
the ordered list of external interactions. -/
def getSumsPhase (w : World) (opts : ReleaseGetOpts) :
    Except Err (Option String) × List Event :=
  if opts.check_integrity then
    match w.sumsText with
    | Except.error s => (Except.error (Err.networkSums s), [Event.fetchSums])
    | Except.ok sums =>
      if !opts.check_sig then (Except.ok (some sums), [Event.fetchSums])
      else
        match w.sigBytes with
        | Except.error s => (Except.error (Err.networkSig s), [Event.fetchSums, Event.fetchSig])
        | Except.ok sig =>
          match sigCheckerNew w.keyAsset w.appendKeys with
          | Except.error e => (Except.error e, [Event.fetchSums, Event.fetchSig])
          | Except.ok keyring =>
            if w.verifyDetached sig sums keyring then
              (Except.ok (some sums), [Event.fetchSums, Event.fetchSig, Event.verifySig])
            else
              (Except.error Err.sigInvalid, [Event.fetchSums, Event.fetchSig, Event.verifySig])
  else (Except.ok none, [])

/-- The integrity check of get on the fetched archive bytes (releases.rs
lines 97-103): skipped with a warning when check_integrity is cleared,
otherwise the manifest option is unwrapped (panicUnwrap models the Rust
panic of Option::unwrap on None), parsed by SumsChecker::new, and the
archive digest compared by SumsChecker::check. -/
def integrityStep (w : World) (version : String) (opts : ReleaseGetOpts)
    (sumsOpt : Option String) (zipRaw : Bytes) : Except Err Unit :=
  if !opts.check_integrity then Except.ok ()
  else
    match sumsOpt with
    | none => Except.error Err.panicUnwrap
    | some sumsText =>
      match sumsCheckerNew sumsText version with
      | Except.error e => Except.error e
      | Except.ok sums => sumsCheckerCheck w.digest sums zipRaw

/-- releases.rs get (lines 65-130): integrity preamble, archive fetch,
integrity check (manifest parse on the unwrapped option, then digest
comparison), zip container parse, single entry extraction by the fixed
name "nomad". -/
def releasesGet (w : World) (version : String) (opts : ReleaseGetOpts) :
    Except Err Bytes × List Event :=
  match getSumsPhase w opts with
  | (Except.error e, evs) => (Except.error e, evs)
  | (Except.ok sumsOpt, evs) =>
    match w.zipBytes with
    | Except.error s => (Except.error (Err.networkZip s), evs ++ [Event.fetchZip])
    | Except.ok zipRaw =>
      match integrityStep w version opts sumsOpt zipRaw with
      | Except.error e => (Except.error e, evs ++ [Event.fetchZip])
      | Except.ok _ =>
        match w.parseZip zipRaw with
        | none => (Except.error Err.malformedArchive, evs ++ [Event.fetchZip])
        | some entries => (extractSingle entries "nomad", evs ++ [Event.fetchZip])

/- ------------------------------------------------------------------ -/
/- Auxiliary predicates.                                               -/
/- ------------------------------------------------------------------ -/

/-- A manifest line the scan of SumsChecker::new passes over without
effect: an empty line, or a well-formed line for another os or arch. -/
def lineSkippable (line : String) : Prop :=
  line = "" ∨
    match parseLine line with
    | LineResult.parsed _ _ os arch => os ≠ "linux" ∨ arch ≠ ARCH
    | _ => False

instance (line : String) : Decidable (lineSkippable line) := by
  unfold lineSkippable
  cases parseLine line <;> infer_instance

/-- Whether an acquisition outcome is the modelled unwrap panic. -/
def panicked : Except Err Bytes → Bool
  | Except.error Err.panicUnwrap => true
  | _ => false

/-- Errors that can only originate in the signature checking path. -/
def sigRelated : Err → Bool
  | Err.networkSig _ => true
  | Err.keyringLoad => true
  | Err.sigInvalid => true
  | _ => false

/- ------------------------------------------------------------------ -/
/- Lemmas on the manifest scan.                                        -/
/- ------------------------------------------------------------------ -/

/-- A line that parses into fields cannot be the empty line. -/
theorem parsed_line_ne_empty {line d v os arch : String}
    (h : parseLine line = LineResult.parsed d v os arch) : line ≠ "" := by
  intro he
  rw [he, show parseLine "" = LineResult.malformedLine "" from rfl] at h
  exact LineResult.noConfusion h

/-- The scan steps over a skippable line without changing its outcome. -/
theorem selectLines_cons_skippable (version line : String) (rest : List String)
    (h : lineSkippable line) :
    selectLines version (line :: rest) = selectLines version rest := by
  by_cases he : line = ""
  · simp [selectLines, he]
  · cases hp : parseLine line with
    | malformedLine l =>
      unfold lineSkippable at h
      rw [hp] at h
      rcases h with he2 | h2
      · exact absurd he2 he
      · exact h2.elim
    | malformedFilename n =>
      unfold lineSkippable at h
      rw [hp] at h
      rcases h with he2 | h2
      · exact absurd he2 he
      · exact h2.elim
    | parsed d v os arch =>
      unfold lineSkippable at h
      rw [hp] at h
      rcases h with he2 | h2
      · exact absurd he2 he
      · have h2' : os ≠ "linux" ∨ arch ≠ ARCH := h2
        rcases h2' with h2' | h2'
        · simp [selectLines, he, hp, h2']
        · by_cases ho : os = "linux" <;> simp [selectLines, he, hp, h2', ho]

/-- The scan steps over any prefix of skippable lines. -/
theorem selectLines_append_skippable (version : String) (pre rest : List String)
    (h : ∀ l ∈ pre, lineSkippable l) :
    selectLines version (pre ++ rest) = selectLines version rest := by
  induction pre with
  | nil => rfl
  | cons a t ih =>
    rw [List.cons_append,
        selectLines_cons_skippable version a (t ++ rest) (h a (List.mem_cons_self a t))]
    exact ih (fun l hl => h l (List.mem_cons_of_mem a hl))

/-- A scan in which every line is skippable completes and reports that
no checksum was found. -/
theorem selectLines_all_skippable (version : String) (lines : List String)
    (h : ∀ l ∈ lines, lineSkippable l) :
    selectLines version lines = Except.error (Err.checksumNotFound version ARCH) := by
  induction lines with
  | nil => rfl
  | cons a t ih =>
    rw [selectLines_cons_skippable version a t (h a (List.mem_cons_self a t))]
    exact ih (fun l hl => h l (List.mem_cons_of_mem a hl))

/-- Evaluation of the scan at a line carrying the target os and arch: only
the version test and the hex decoding remain. -/
theorem selectLines_cons_parsed (version line : String) (rest : List String)
    (d ver : String)
    (hp : parseLine line = LineResult.parsed d ver "linux" ARCH) :
    selectLines version (line :: rest) =
      (if ver ≠ version then Except.error (Err.versionMismatch ver version)
       else
         match hexDecode d with
         | none => Except.error Err.malformedDigest
         | some bs => Except.ok bs) := by
  have hne : line ≠ "" := parsed_line_ne_empty hp
  simp [selectLines, hne, hp]

/- ------------------------------------------------------------------ -/
/- Claims on the checksum table parser.                                -/
/- ------------------------------------------------------------------ -/

/-- C2: for a manifest whose scan reaches a line carrying the target os
and arch but another version (every earlier line is empty or a well-formed
line of another os or arch), SumsChecker::new fails at once with the
version mismatch error carrying the found and the expected version; the
lines after that one, post, are arbitrary, so a later exactly-matching
line never rescues the scan. -/
theorem select_fail_fast_version_mismatch (sums_raw version : String)
    (pre post : List String) (line d ver : String)
    (hsplit : splitLines sums_raw = pre ++ line :: post)
    (hpre : ∀ l ∈ pre, lineSkippable l)
    (hline : parseLine line = LineResult.parsed d ver "linux" ARCH)
    (hver : ver ≠ version) :
    sumsCheckerNew sums_raw version = Except.error (Err.versionMismatch ver version) := by
  unfold sumsCheckerNew
  rw [hsplit, selectLines_append_skippable version pre (line :: post) hpre,
      selectLines_cons_parsed version line post d ver hline, if_pos hver]

/-- Witness for C2: the second manifest line matches version, os and arch
exactly, yet the first line's version mismatch aborts the scan. -/
theorem select_fail_fast_version_mismatch_witness :
    sumsCheckerNew "ab nomad_1.0.1_linux_amd64.zip\nab nomad_1.0.0_linux_amd64.zip" "1.0.0"
      = Except.error (Err.versionMismatch "1.0.1" "1.0.0") :=
  select_fail_fast_version_mismatch
    "ab nomad_1.0.1_linux_amd64.zip\nab nomad_1.0.0_linux_amd64.zip" "1.0.0"
    [] ["ab nomad_1.0.0_linux_amd64.zip"] "ab nomad_1.0.1_linux_amd64.zip" "ab" "1.0.1"
    rfl (by simp) rfl (by decide)

/-- C3: for a manifest whose scan reaches a line on which version, os and
arch all match (every earlier line is empty or a well-formed line of
another os or arch) and whose digest field hex-decodes, SumsChecker::new
returns exactly that decoded digest; the lines after that one, post, are
arbitrary and never examined. -/
theorem select_first_match_wins (sums_raw version : String)
    (pre post : List String) (line d : String) (bytes : Bytes)
    (hsplit : splitLines sums_raw = pre ++ line :: post)
    (hpre : ∀ l ∈ pre, lineSkippable l)
    (hline : parseLine line = LineResult.parsed d version "linux" ARCH)
    (hdec : hexDecode d = some bytes) :
    sumsCheckerNew sums_raw version = Except.ok bytes := by
  unfold sumsCheckerNew
  rw [hsplit, selectLines_append_skippable version pre (line :: post) hpre,
      selectLines_cons_parsed version line post d version hline,
      if_neg (fun hc => hc rfl), hdec]

/-- Witness for C3: the digest of the first matching line is returned even
though the trailing line is malformed and would fail if examined. -/
theorem select_first_match_wins_witness :
    sumsCheckerNew "ab nomad_1.0.0_linux_amd64.zip\nzz zz" "1.0.0" = Except.ok [171] :=
  select_first_match_wins "ab nomad_1.0.0_linux_amd64.zip\nzz zz" "1.0.0"
    [] ["zz zz"] "ab nomad_1.0.0_linux_amd64.zip" "ab" [171] rfl (by simp) rfl rfl

/-- C4, counterexample to the width requirement: on a matching line whose
digest field is "abcd" - well-formed hex of length 4, not 64 -
SumsChecker::new returns the two decoded bytes instead of failing with the
malformed digest error: the source applies hex::decode with no width
check. -/
theorem select_returns_short_hex :
    sumsCheckerNew "abcd nomad_1.0.0_linux_amd64.zip" "1.0.0" = Except.ok [171, 205] := rfl

/-- C4 as amended: on the first matching line, SumsChecker::new fails with
the malformed digest error exactly when hex::decode fails on the digest
field (a non-hex character or odd length); a decodable field of any length
is returned, no width check being performed. -/
theorem select_digest_decode (sums_raw version : String)
    (pre post : List String) (line d : String)
    (hsplit : splitLines sums_raw = pre ++ line :: post)
    (hpre : ∀ l ∈ pre, lineSkippable l)
    (hline : parseLine line = LineResult.parsed d version "linux" ARCH) :
    (hexDecode d = none → sumsCheckerNew sums_raw version = Except.error Err.malformedDigest) ∧
    (∀ bytes, hexDecode d = some bytes → sumsCheckerNew sums_raw version = Except.ok bytes) := by
  have hsel : sumsCheckerNew sums_raw version =
      (match hexDecode d with
       | none => Except.error Err.malformedDigest
       | some bs => Except.ok bs) := by
    unfold sumsCheckerNew
    rw [hsplit, selectLines_append_skippable version pre (line :: post) hpre,
        selectLines_cons_parsed version line post d version hline,
        if_neg (fun hc => hc rfl)]
  constructor
  · intro hd
    rw [hsel, hd]
  · intro bytes hd
    rw [hsel, hd]

/-- Witness for the amended C4: a non-hex digest field fails with the
malformed digest error, while a 3-byte (6 hex character) digest field is
decoded and returned. -/
theorem select_digest_decode_witness :
    sumsCheckerNew "zz nomad_1.0.0_linux_amd64.zip" "1.0.0"
      = Except.error Err.malformedDigest ∧
    sumsCheckerNew "abcdef nomad_1.0.0_linux_amd64.zip" "1.0.0"
      = Except.ok [171, 205, 239] :=
  ⟨(select_digest_decode "zz nomad_1.0.0_linux_amd64.zip" "1.0.0" [] []
      "zz nomad_1.0.0_linux_amd64.zip" "zz" rfl (by simp) rfl).1 rfl,
   (select_digest_decode "abcdef nomad_1.0.0_linux_amd64.zip" "1.0.0" [] []
      "abcdef nomad_1.0.0_linux_amd64.zip" "abcdef" rfl (by simp) rfl).2
     [171, 205, 239] rfl⟩

/-- C9: when every line of the manifest is empty or a well-formed line of
another os or arch, the scan of SumsChecker::new completes and fails with
the checksum-not-found error carrying the requested version and the target
arch (the os being the fixed "linux"). -/
theorem select_no_match_not_found (sums_raw version : String)
    (h : ∀ l ∈ splitLines sums_raw, lineSkippable l) :
    sumsCheckerNew sums_raw version = Except.error (Err.checksumNotFound version ARCH) :=
  selectLines_all_skippable version (splitLines sums_raw) h

/-- Witness for C9: a manifest whose only entry is for another arch ends
in the checksum-not-found error. -/
theorem select_no_match_not_found_witness :
    sumsCheckerNew "ab nomad_1.0.0_linux_arm64.zip\n" "1.0.0"
      = Except.error (Err.checksumNotFound "1.0.0" ARCH) :=
  select_no_match_not_found "ab nomad_1.0.0_linux_arm64.zip\n" "1.0.0" (by decide)

/- ------------------------------------------------------------------ -/
/- Claims on the keyring, the digest comparison and the extraction.    -/
/- ------------------------------------------------------------------ -/

/-- An armored-key parser that always fails, appending no keys. -/
def rejectKeys : Bytes → Keyring × Bool := fun _ => ([], false)

/-- C1, counterexample: with key material present but unparseable (the
parser fails and appends no keys), SigChecker::new nevertheless succeeds,
returning the empty keyring: the source discards the Result of
append_keys_from_armoured, so a parse failure is silently ignored and the
keyring is missing the trusted keys. -/
theorem sigCheckerNew_parse_failure_ok :
    (rejectKeys [0]).2 = false ∧
    sigCheckerNew (some [0]) rejectKeys = Except.ok [] :=
  ⟨rfl, rfl⟩

/-- C1 as amended: keyring construction fails with the keyring-load error
exactly when the embedded key asset is missing; whenever the asset is
present, construction succeeds with whatever keys (possibly none) the
armored parse appended, its success flag being ignored. -/
theorem sigCheckerNew_fails_iff_asset_missing (appendKeys : Bytes → Keyring × Bool) :
    sigCheckerNew none appendKeys = Except.error Err.keyringLoad ∧
    ∀ key, sigCheckerNew (some key) appendKeys = Except.ok (appendKeys key).1 :=
  ⟨rfl, fun _ => rfl⟩

/-- C7: the digest comparison of SumsChecker::check, for any digest
function standing for Sha256::digest, succeeds exactly when the computed
digest equals the stored one byte-for-byte, and otherwise fails with the
mismatch error reporting the hex encodings of the actual and the expected
digest. -/
theorem sumsCheckerCheck_spec (digest : Bytes → Bytes) (sums src : Bytes) :
    (sumsCheckerCheck digest sums src = Except.ok () ↔ digest src = sums) ∧
    (digest src ≠ sums →
      sumsCheckerCheck digest sums src =
        Except.error (Err.digestMismatch (hexEncode (digest src)) (hexEncode sums))) := by
  by_cases h : digest src = sums <;> simp [sumsCheckerCheck, h]

/-- Witness for C7: equal digests pass; the digests of two byte strings
differing in one byte mismatch, and both hex values are reported. -/
theorem sumsCheckerCheck_spec_witness :
    sumsCheckerCheck (fun _ => [0, 255]) [0, 255] [1, 2] = Except.ok () ∧
    sumsCheckerCheck (fun _ => [0, 254]) [0, 255] [1, 2] =
      Except.error (Err.digestMismatch "00fe" "00ff") :=
  ⟨(sumsCheckerCheck_spec (fun _ => [0, 255]) [0, 255] [1, 2]).1.mpr rfl,
   (sumsCheckerCheck_spec (fun _ => [0, 254]) [0, 255] [1, 2]).2 (by decide)⟩

/-- C5: extraction from a parsed archive: an archive of zero entries fails
with the empty-archive error; one of more than one entry fails with the
multiple-entries error carrying the full name list; a single entry of the
wrong name fails with the entry-not-found error; and a single entry of the
expected name yields its decompressed bytes. -/
theorem extractSingle_spec (entries : List (String × Bytes)) (expected : String) :
    (entries = [] → extractSingle entries expected = Except.error Err.emptyArchive) ∧
    (1 < entries.length →
      extractSingle entries expected =
        Except.error (Err.multipleEntries (entries.map Prod.fst))) ∧
    (∀ name bytes, entries = [(name, bytes)] → name ≠ expected →
      extractSingle entries expected = Except.error (Err.entryNotFound name expected)) ∧
    (∀ bytes, entries = [(expected, bytes)] →
      extractSingle entries expected = Except.ok bytes) := by
  refine ⟨?_, ?_, ?_, ?_⟩
  · intro h
    subst h
    rfl
  · intro h
    cases entries with
    | nil => simp at h
    | cons a t =>
      cases t with
      | nil => simp at h
      | cons b t2 =>
        unfold extractSingle
        rw [if_neg (by simp), if_pos (by rw [List.length_cons, List.length_cons]; omega)]
  · intro name bytes h hne
    subst h
    simp [extractSingle, hne]
  · intro bytes h
    subst h
    simp [extractSingle]

/-- Witness for C5, exercising all four cases: the empty archive, the
two-entry archive (both names reported), the single wrongly named entry,
and the single matching entry whose bytes are returned. -/
theorem extractSingle_spec_witness :
    extractSingle [] "nomad" = Except.error Err.emptyArchive ∧
    extractSingle [("nomad", [1]), ("LICENSE", [2])] "nomad"
      = Except.error (Err.multipleEntries ["nomad", "LICENSE"]) ∧
    extractSingle [("meh", [3])] "nomad" = Except.error (Err.entryNotFound "meh" "nomad") ∧
    extractSingle [("nomad", [9, 8])] "nomad" = Except.ok [9, 8] :=
  ⟨(extractSingle_spec [] "nomad").1 rfl,
   (extractSingle_spec [("nomad", [1]), ("LICENSE", [2])] "nomad").2.1 (by decide),
   (extractSingle_spec [("meh", [3])] "nomad").2.2.1 "meh" [3] rfl (by decide),
   (extractSingle_spec [("nomad", [9, 8])] "nomad").2.2.2 [9, 8] rfl⟩

/- ------------------------------------------------------------------ -/
/- Provenance of errors, by pipeline component.                        -/
/- ------------------------------------------------------------------ -/

/-- SigChecker::new can only fail with the keyring-load error. -/
theorem sigCheckerNew_error_shape (asset : Option Bytes) (ap : Bytes → Keyring × Bool)
    (e : Err) (h : sigCheckerNew asset ap = Except.error e) : e = Err.keyringLoad := by
  unfold sigCheckerNew at h
  split at h
  · simp only [Except.error.injEq] at h
    exact h.symm
  · simp at h

/-- The manifest scan can only fail with one of its five parse errors. -/
theorem selectLines_error_shape (version : String) (lines : List String) (e : Err)
    (h : selectLines version lines = Except.error e) :
    (∃ l, e = Err.malformedLine l) ∨ (∃ n, e = Err.malformedFilename n) ∨
    (∃ f x, e = Err.versionMismatch f x) ∨ e = Err.malformedDigest ∨
    (∃ v a, e = Err.checksumNotFound v a) := by
  induction lines with
  | nil =>
    simp only [selectLines, Except.error.injEq] at h
    exact Or.inr (Or.inr (Or.inr (Or.inr ⟨version, ARCH, h.symm⟩)))
  | cons a t ih =>
    simp only [selectLines] at h
    split at h
    · exact ih h
    · split at h
      · simp only [Except.error.injEq] at h
        exact Or.inl ⟨_, h.symm⟩
      · simp only [Except.error.injEq] at h
        exact Or.inr (Or.inl ⟨_, h.symm⟩)
      · split at h
        · exact ih h
        · split at h
          · exact ih h
          · split at h
            · simp only [Except.error.injEq] at h
              exact Or.inr (Or.inr (Or.inl ⟨_, _, h.symm⟩))
            · split at h
              · simp only [Except.error.injEq] at h
                exact Or.inr (Or.inr (Or.inr (Or.inl h.symm)))
              · simp at h

/-- SumsChecker::check can only fail with the digest-mismatch error. -/
theorem sumsCheckerCheck_error_shape (digest : Bytes → Bytes) (sums src : Bytes) (e : Err)
    (h : sumsCheckerCheck digest sums src = Except.error e) :
    ∃ x y, e = Err.digestMismatch x y := by
  simp only [sumsCheckerCheck] at h
  split at h
  · simp only [Except.error.injEq] at h
    exact ⟨_, _, h.symm⟩
  · simp at h

/-- The extraction step can only fail with one of its three archive errors. -/
theorem extractSingle_error_shape (entries : List (String × Bytes)) (expected : String)
    (e : Err) (h : extractSingle entries expected = Except.error e) :
    e = Err.emptyArchive ∨ (∃ ns, e = Err.multipleEntries ns) ∨
    ∃ a b, e = Err.entryNotFound a b := by
  unfold extractSingle at h
  split at h
  · simp only [Except.error.injEq] at h
    exact Or.inl h.symm
  · split at h
    · simp only [Except.error.injEq] at h
      exact Or.inr (Or.inl ⟨_, h.symm⟩)
    · split at h
      · simp only [Except.error.injEq] at h
        exact Or.inl h.symm
      · split at h
        · simp at h
        · simp only [Except.error.injEq] at h
          exact Or.inr (Or.inr ⟨_, _, h.symm⟩)

/-- The extraction step never yields the modelled unwrap panic. -/
theorem extractSingle_not_panicked (entries : List (String × Bytes)) (expected : String) :
    panicked (extractSingle entries expected) = false := by
  cases hr : extractSingle entries expected with
  | ok bs => rfl
  | error e =>
    rcases extractSingle_error_shape entries expected e hr with rfl | ⟨ns, rfl⟩ | ⟨a, b, rfl⟩
      <;> rfl

/-- The integrity preamble can only fail with a transport, keyring or
signature error. -/
theorem getSumsPhase_error_shape (w : World) (opts : ReleaseGetOpts) (e : Err)
    (evs : List Event) (h : getSumsPhase w opts = (Except.error e, evs)) :
    (∃ s, e = Err.networkSums s) ∨ (∃ s, e = Err.networkSig s) ∨
    e = Err.keyringLoad ∨ e = Err.sigInvalid := by
  unfold getSumsPhase at h
  split at h
  · split at h
    · simp only [Prod.mk.injEq, Except.error.injEq] at h
      exact Or.inl ⟨_, h.1.symm⟩
    · split at h
      · simp at h
      · split at h
        · simp only [Prod.mk.injEq, Except.error.injEq] at h
          exact Or.inr (Or.inl ⟨_, h.1.symm⟩)
        · split at h
          · rename_i e2 heq
            simp only [Prod.mk.injEq, Except.error.injEq] at h
            exact Or.inr (Or.inr (Or.inl
              (h.1 ▸ sigCheckerNew_error_shape w.keyAsset w.appendKeys e2 heq)))
          · split at h
            · simp at h
            · simp only [Prod.mk.injEq, Except.error.injEq] at h
              exact Or.inr (Or.inr (Or.inr h.1.symm))
  · simp at h

/-- When check_integrity is set, a successful integrity preamble always
carries the manifest text. -/
theorem getSumsPhase_ok_some (w : World) (opts : ReleaseGetOpts)
    (hi : opts.check_integrity = true) (x : Option String) (evs : List Event)
    (h : getSumsPhase w opts = (Except.ok x, evs)) : ∃ t, x = some t := by
  unfold getSumsPhase at h
  rw [if_pos hi] at h
  split at h
  · simp at h
  · split at h
    · simp only [Prod.mk.injEq, Except.ok.injEq] at h
      exact ⟨_, h.1.symm⟩
    · split at h
      · simp at h
      · split at h
        · simp at h
        · split at h
          · simp only [Prod.mk.injEq, Except.ok.injEq] at h
            exact ⟨_, h.1.symm⟩
          · simp at h

/-- Under the invariant that the manifest option is present whenever
check_integrity is set, the integrity check can only fail with a parse
error of the manifest or a digest mismatch - never with the unwrap panic. -/
theorem integrityStep_error_shape (w : World) (version : String) (opts : ReleaseGetOpts)
    (sumsOpt : Option String) (zipRaw : Bytes) (e : Err)
    (hsome : opts.check_integrity = true → ∃ t, sumsOpt = some t)
    (h : integrityStep w version opts sumsOpt zipRaw = Except.error e) :
    (∃ l, e = Err.malformedLine l) ∨ (∃ n, e = Err.malformedFilename n) ∨
    (∃ f x, e = Err.versionMismatch f x) ∨ e = Err.malformedDigest ∨
    (∃ v a, e = Err.checksumNotFound v a) ∨ (∃ x y, e = Err.digestMismatch x y) := by
  unfold integrityStep at h
  split at h
  · simp at h
  · rename_i hcib
    have hci : opts.check_integrity = true := by
      simpa using hcib
    split at h
    · obtain ⟨t, ht⟩ := hsome hci
      exact Option.noConfusion ht
    · rename_i txt
      split at h
      · rename_i e2 heq
        simp only [Except.error.injEq] at h
        rcases selectLines_error_shape version (splitLines txt) e2 heq with
          hc | hc | hc | hc | hc
        · exact Or.inl (h ▸ hc)
        · exact Or.inr (Or.inl (h ▸ hc))
        · exact Or.inr (Or.inr (Or.inl (h ▸ hc)))
        · exact Or.inr (Or.inr (Or.inr (Or.inl (h ▸ hc))))
        · exact Or.inr (Or.inr (Or.inr (Or.inr (Or.inl (h ▸ hc)))))
      · rename_i sums heq
        exact Or.inr (Or.inr (Or.inr (Or.inr (Or.inr
          (sumsCheckerCheck_error_shape w.digest sums zipRaw e h)))))

/- ------------------------------------------------------------------ -/
/- Claims on the orchestrator.                                         -/
/- ------------------------------------------------------------------ -/

/-- C10: the unwrap of the manifest option inside the integrity branch of
get can never hit None: for every world, version and option pair, the
acquisition never ends in the modelled unwrap panic, because the option is
Some whenever check_integrity is set. -/
theorem get_unwrap_never_panics (w : World) (version : String) (opts : ReleaseGetOpts) :
    panicked (releasesGet w version opts).1 = false := by
  unfold releasesGet
  split
  · rename_i e evs heq
    rcases getSumsPhase_error_shape w opts e evs heq with
      ⟨s, rfl⟩ | ⟨s, rfl⟩ | rfl | rfl <;> rfl
  · rename_i sumsOpt evs heq
    split
    · rfl
    · rename_i zipRaw hz
      split
      · rename_i e hstep
        have hsome : opts.check_integrity = true → ∃ t, sumsOpt = some t :=
          fun hi => getSumsPhase_ok_some w opts hi sumsOpt evs heq
        rcases integrityStep_error_shape w version opts sumsOpt zipRaw e hsome hstep with
          ⟨l, rfl⟩ | ⟨n, rfl⟩ | ⟨f, x, rfl⟩ | rfl | ⟨v2, a2, rfl⟩ | ⟨x, y, rfl⟩ <;> rfl
      · rename_i u hstep
        split
        · rfl
        · rename_i entries hp
          exact extractSingle_not_panicked entries "nomad"

/-- Evaluation of the whole acquisition when check_integrity is cleared:
the integrity preamble is skipped entirely - the only event is the archive
fetch - independently of check_sig. -/
theorem get_no_integrity_eval (w : World) (version : String) (cs : Bool) :
    releasesGet w version (ReleaseGetOpts.mk false cs) =
      (match w.zipBytes with
       | Except.error s => (Except.error (Err.networkZip s), [Event.fetchZip])
       | Except.ok zipRaw =>
         match w.parseZip zipRaw with
         | none => (Except.error Err.malformedArchive, [Event.fetchZip])
         | some entries => (extractSingle entries "nomad", [Event.fetchZip])) := rfl

/-- C8: check_sig has effect only when check_integrity is set: with
check_integrity cleared, the acquisition result and event trace are
identical for any two values of check_sig, the signature is never fetched
and never verified, and any failure of the acquisition is not
signature-related. -/
theorem get_no_integrity_skips_signature (w : World) (version : String) (cs cs' : Bool) :
    releasesGet w version (ReleaseGetOpts.mk false cs)
      = releasesGet w version (ReleaseGetOpts.mk false cs') ∧
    (releasesGet w version (ReleaseGetOpts.mk false cs)).2.contains Event.fetchSig = false ∧
    (releasesGet w version (ReleaseGetOpts.mk false cs)).2.contains Event.verifySig = false ∧
    ∀ e, (releasesGet w version (ReleaseGetOpts.mk false cs)).1 = Except.error e →
      sigRelated e = false := by
  refine ⟨rfl, ?_, ?_, ?_⟩
  · rw [get_no_integrity_eval w version cs]
    split
    · rfl
    · split
      · rfl
      · rfl
  · rw [get_no_integrity_eval w version cs]
    split
    · rfl
    · split
      · rfl
      · rfl
  · intro e he
    rw [get_no_integrity_eval w version cs] at he
    split at he
    · rename_i s hzeq
      have h1 : Err.networkZip s = e := by simpa using he
      rw [← h1]
      rfl
    · rename_i zipRaw hzeq
      split at he
      · have h1 : Err.malformedArchive = e := by simpa using he
        rw [← h1]
        rfl
      · rename_i entries hpeq
        have h1 : extractSingle entries "nomad" = Except.error e := by simpa using he
        rcases extractSingle_error_shape entries "nomad" e h1 with rfl | ⟨ns, rfl⟩ | ⟨a, b, rfl⟩
          <;> rfl

/-- A world whose archive fetch fails with HTTP status 404. -/
def wZipFail : World :=
  ⟨Except.ok "", Except.ok [], Except.error 404, none, fun _ => ([], true),
   fun _ _ _ => true, fun _ => [], fun _ => some []⟩

/-- Witness for C8: with check_integrity cleared and check_sig set, the
only failure of an acquisition whose archive fetch is refused is the
archive network error, which is not signature-related. -/
theorem get_no_integrity_skips_signature_witness :
    sigRelated (Err.networkZip 404) = false :=
  (get_no_integrity_skips_signature wZipFail "1.0.0" true false).2.2.2
    (Err.networkZip 404) rfl

/-- A world that serves a one-word manifest text that no line parse
accepts, a signature, a key asset and an archive; check_sig will be
cleared when it is used, so the signature fields are inert. -/
def wGarbage : World :=
  ⟨Except.ok "garbage", Except.ok [], Except.ok [], some [], fun _ => ([], true),
   fun _ _ _ => true, fun _ => [], fun _ => some []⟩

/-- C6, counterexample to the fetch ordering: with check_integrity set and
a manifest text whose parse fails with a malformed-line error, the
acquisition still fetches the archive - the event trace records the
archive fetch - because the source parses the manifest only inside the
archive block, after NomadZip::get. -/
theorem get_fetches_archive_despite_parse_failure :
    sumsCheckerNew "garbage" "1.0.0" = Except.error (Err.malformedLine "garbage") ∧
    releasesGet wGarbage "1.0.0" (ReleaseGetOpts.mk true false) =
      (Except.error (Err.malformedLine "garbage"), [Event.fetchSums, Event.fetchZip]) ∧
    (releasesGet wGarbage "1.0.0" (ReleaseGetOpts.mk true false)).2.contains
      Event.fetchZip = true :=
  ⟨rfl, rfl, rfl⟩

/-- C6 as amended: with check_integrity set, the manifest text is fetched
(and any signature checking happens) before the archive, but the manifest
is parsed only after the archive bytes are fetched: when the integrity
preamble succeeds, the archive fetch succeeds and the manifest parse
fails, the acquisition aborts with that parse error and the archive fetch
is in the event trace. -/
theorem get_parse_error_after_archive_fetch (w : World) (version : String)
    (opts : ReleaseGetOpts) (txt : String) (zipRaw : Bytes) (e : Err) (evs : List Event)
    (hi : opts.check_integrity = true)
    (hphase : getSumsPhase w opts = (Except.ok (some txt), evs))
    (hzip : w.zipBytes = Except.ok zipRaw)
    (hparse : sumsCheckerNew txt version = Except.error e) :
    releasesGet w version opts = (Except.error e, evs ++ [Event.fetchZip]) := by
  have hstep : integrityStep w version opts (some txt) zipRaw = Except.error e := by
    unfold integrityStep
    rw [hi]
    show (match sumsCheckerNew txt version with
          | Except.error e2 => Except.error e2
          | Except.ok sums => sumsCheckerCheck w.digest sums zipRaw) = Except.error e
    rw [hparse]
  unfold releasesGet
  rw [hphase]
  show (match w.zipBytes with
        | Except.error s => (Except.error (Err.networkZip s), evs ++ [Event.fetchZip])
        | Except.ok zr =>
          match integrityStep w version opts (some txt) zr with
          | Except.error e2 => (Except.error e2, evs ++ [Event.fetchZip])
          | Except.ok u =>
            match w.parseZip zr with
            | none => (Except.error Err.malformedArchive, evs ++ [Event.fetchZip])
            | some entries => (extractSingle entries "nomad", evs ++ [Event.fetchZip])) =
      (Except.error e, evs ++ [Event.fetchZip])
  rw [hzip]
  show (match integrityStep w version opts (some txt) zipRaw with
        | Except.error e2 => (Except.error e2, evs ++ [Event.fetchZip])
        | Except.ok u =>
          match w.parseZip zipRaw with
          | none => (Except.error Err.malformedArchive, evs ++ [Event.fetchZip])
          | some entries => (extractSingle entries "nomad", evs ++ [Event.fetchZip])) =
      (Except.error e, evs ++ [Event.fetchZip])
  rw [hstep]

/-- Witness for the amended C6: on the garbage-manifest world, the
acquisition with check_integrity set ends in the malformed-line parse
error and its trace holds the manifest fetch followed by the archive
fetch. -/
theorem get_parse_error_after_archive_fetch_witness :
    releasesGet wGarbage "1.0.0" (ReleaseGetOpts.mk true false) =
      (Except.error (Err.malformedLine "garbage"), [Event.fetchSums, Event.fetchZip]) :=
  get_parse_error_after_archive_fetch wGarbage "1.0.0" (ReleaseGetOpts.mk true false)
    "garbage" [] (Err.malformedLine "garbage") [Event.fetchSums] rfl rfl rfl rfl
